import Mathlib

/-!
Verification of the keypad input subsystem of `src/firmware/keypad.c`
(mkschreder/ar-t6): a shallow embedding of the debounce/repeat state
machine (`keypad_process`), the matrix scanner (`keypad_scan_keys`),
the pressed-key accumulator (`keypad_get_pressed`), the repeat
cancellation (`keypad_cancel_repeat`), and the rotary edge decoder part
of `EXTI15_10_IRQHandler`, with theorems about their behaviour.

Machine integers are modelled as `Nat`. `system_ticks` wraparound is out
of scope per the spec, so tick arithmetic is plain `Nat` arithmetic; the
32-bit complement in `keypad_get_pressed` is modelled exactly with an
explicit 32-bit all-ones mask.
-/

namespace Keypad

/- Timing constants, keypad.c lines 44-46. -/

def KEY_HOLDOFF : Nat := 10

def KEY_REPEAT_DELAY : Nat := 500

def KEY_REPEAT_TIME : Nat := 100

/- Pin masks, keypad.c lines 39-42. -/

def ROW_MASK : Nat := 0x07 <<< 12

def COL_MASK : Nat := 0x0F <<< 8

def ROW (n : Nat) : Nat := 1 <<< (12 + n)

def COL (n : Nat) : Nat := 1 <<< (8 + n)

/-- Modelled from the spec: the `KEYPAD_KEY` codes are declared in `keypad.h`,
which is not under `src/`. Per the spec (section 3), `KeyCode` is a bitmask
with exactly one bit per physical/logical key and `0` meaning "no key"; the
concrete bit positions are chosen arbitrarily but distinct. -/
def KEY_NONE : Nat := 0

def KEY_CH1_UP : Nat := 0x01

def KEY_CH1_DN : Nat := 0x02

def KEY_CH2_UP : Nat := 0x04

def KEY_CH2_DN : Nat := 0x08

def KEY_CH3_UP : Nat := 0x10

def KEY_CH3_DN : Nat := 0x20

def KEY_CH4_UP : Nat := 0x40

def KEY_CH4_DN : Nat := 0x80

def KEY_SEL : Nat := 0x100

def KEY_OK : Nat := 0x200

def KEY_CANCEL : Nat := 0x400

def KEY_MENU : Nat := 0x800

def KEY_LEFT : Nat := 0x1000

def KEY_RIGHT : Nat := 0x2000

/-- Modelled from the spec: `TRIM_KEYS` (from `keypad.h`, not under `src/`) is
the repeatable set, i.e. the eight channel-trim keys (spec section 4.3: "for a
key in the repeatable set"; section 8 calls them the "trim" keys). -/
def TRIM_KEYS : Nat :=
  KEY_CH1_UP ||| KEY_CH1_DN ||| KEY_CH2_UP ||| KEY_CH2_DN |||
  KEY_CH3_UP ||| KEY_CH3_DN ||| KEY_CH4_UP ||| KEY_CH4_DN

/-- Modelled from the spec: the column EXTI lines (`keypad.h`). `keypad_init`
(keypad.c lines 90-92) configures GPIOB pins 12..14 as the keypad interrupt
sources, so the mask covers EXTI lines 12..14. -/
def KEYPAD_EXTI_LINES : Nat := 0x07 <<< 12

/-- Modelled from the spec: the rotary EXTI line (`keypad.h`). `keypad_init`
(keypad.c line 99) configures GPIOC pin 15 as the rotary interrupt source. -/
def ROTARY_EXTI_LINES : Nat := 1 <<< 15

/-- 16-bit all-ones: GPIO ports are 16 bits wide. -/
def MASK16 : Nat := 0xFFFF

/-- 32-bit all-ones, for the `uint32_t` complement in `keypad_get_pressed`. -/
def MASK32 : Nat := 0xFFFFFFFF

/-- The mutable state of the driver: the three file-scope variables of
keypad.c lines 49-51, plus the scheduler's pending entry for
`TASK_PROCESS_KEYPAD` (`some (data, delay)` when scheduled, `none` when
descheduled), which the driver manipulates through `task_schedule` /
`task_deschedule`. -/
structure KState where
  keys_pressed : Nat
  key_repeat : Nat
  key_time : Nat
  sched : Option (Nat × Nat)
deriving Repr, DecidableEq

/-- `keypad_get_pressed` (keypad.c lines 129-135): consume-on-read poll of one
key bit. `keys_pressed &= ~key` is 32-bit: the complement is modelled as xor
with the 32-bit all-ones mask. Returns the C return value and the new state. -/
def keypad_get_pressed (key : Nat) (s : KState) : Bool × KState :=
  if s.keys_pressed &&& key ≠ 0 then
    (true, { s with keys_pressed := s.keys_pressed &&& (MASK32 ^^^ key) })
  else
    (false, s)

/-- `keypad_cancel_repeat` (keypad.c lines 176-180). -/
def keypad_cancel_repeat (s : KState) : KState :=
  { s with key_repeat := 0, key_time := 0, sched := none }

/-- The physical key matrix: `m c r = true` means the contact at column `c`,
row `r` is closed. This is the scanner's only input from the hardware. -/
abbrev KeyMatrix : Type := Fin 4 → Fin 3 → Bool

/-- The row bits of `GPIO_ReadInputData(GPIOB)` while column `col` is driven
low (keypad.c line 291): rows are pulled high externally and read low exactly
when a contact connects them to the active-low column. Non-row bits of the
port read are irrelevant because every use in the source masks with
`ROW_MASK`, so only the row bits are modelled (idle = bit set). -/
def rowsRead (m : KeyMatrix) (col : Fin 4) : Nat :=
  (if m col 0 then 0 else ROW 0) |||
  (if m col 1 then 0 else ROW 1) |||
  (if m col 2 then 0 else ROW 2)

/-- The column at which the scan loop (keypad.c lines 281-297) breaks with
`found = true`: the first column, in order 0..3, whose row read differs from
all-rows-idle. `none` means the loop ran to completion with no key found. -/
def scanFoundCol (m : KeyMatrix) : Option (Fin 4) :=
  (List.finRange 4).find? (fun c => rowsRead m c &&& ROW_MASK != ROW_MASK)

/-- The `switch (col)` lookup of keypad.c lines 305-342, mapping the found
column and the inverted-and-masked row bits to a key code. Unlisted
(column, row) intersections - column 0 row 2, and any `col` beyond 3 - leave
`key` at `KEY_NONE`. -/
def colKey (col : Nat) (rows : Nat) : Nat :=
  if col = 0 then
    if rows &&& ROW 0 ≠ 0 then KEY_CH1_UP
    else if rows &&& ROW 1 ≠ 0 then KEY_CH3_UP
    else KEY_NONE
  else if col = 1 then
    if rows &&& ROW 0 ≠ 0 then KEY_CH1_DN
    else if rows &&& ROW 1 ≠ 0 then KEY_CH3_DN
    else if rows &&& ROW 2 ≠ 0 then KEY_SEL
    else KEY_NONE
  else if col = 2 then
    if rows &&& ROW 0 ≠ 0 then KEY_CH2_UP
    else if rows &&& ROW 1 ≠ 0 then KEY_CH4_UP
    else if rows &&& ROW 2 ≠ 0 then KEY_OK
    else KEY_NONE
  else if col = 3 then
    if rows &&& ROW 0 ≠ 0 then KEY_CH2_DN
    else if rows &&& ROW 1 ≠ 0 then KEY_CH4_DN
    else if rows &&& ROW 2 ≠ 0 then KEY_CANCEL
    else KEY_NONE
  else KEY_NONE

/-- `keypad_scan_keys` (keypad.c lines 275-346), result value: if the loop
found a column, invert the row read (`rows` is a `uint16_t`, so `~rows` is
modelled as xor with 16-bit all-ones) and mask to the row bits, then map
through the `switch`; otherwise `KEY_NONE`. -/
def keypad_scan_keys (m : KeyMatrix) : Nat :=
  match scanFoundCol m with
  | none => KEY_NONE
  | some c => colKey c.val ((MASK16 ^^^ rowsRead m c) &&& ROW_MASK)

/-- `GPIO_SetBits`: OR the mask into the port's output register. -/
def gpioSet (g mask : Nat) : Nat := g ||| mask

/-- `GPIO_ResetBits`: clear the mask's bits in the port's output register
(16-bit port, complement modelled as xor with 16-bit all-ones). -/
def gpioReset (g mask : Nat) : Nat := g &&& (MASK16 ^^^ mask)

/-- The GPIOB output register after `keypad_scan_keys` returns, starting from
output state `g`. Each loop iteration (keypad.c lines 283-284) first sets all
column bits and then clears the active column's bit, so only the last visited
column's write survives the loop; line 300 then resets all columns. The column
writes never feed back into the row reads in this model (the matrix alone
determines them), so the output register can be tracked separately from the
scan result. -/
def scanGpioAfter (m : KeyMatrix) (g : Nat) : Nat :=
  let lastCol : Nat :=
    match scanFoundCol m with
    | some c => c.val
    | none => 3
  gpioReset (gpioReset (gpioSet g COL_MASK) (COL lastCol)) COL_MASK

/-- Lines 251-262 of keypad.c: accept the event - OR `key` into
`keys_pressed`, record the key time, and send the key to the UI (the returned
list is the `gui_input_key` call). -/
def keypad_accept (s : KState) (ticks key : Nat) : KState × List Nat :=
  ({ s with keys_pressed := s.keys_pressed ||| key, key_time := ticks }, [key])

/-- Lines 209-220 of keypad.c: auxiliary scheduler data, when non-zero,
overrides the scanned key with the synthetic rotary code (1 is `KEY_RIGHT`,
2 is `KEY_LEFT`, anything else leaves the key unchanged). -/
def rotary_override (data key : Nat) : Nat :=
  if data ≠ 0 then
    if data = 1 then KEY_RIGHT else if data = 2 then KEY_LEFT else key
  else key

/-- Lines 226-262 of keypad.c: the body of `if (key != 0)` after the
re-schedule - the repeat policy when a key was already in progress
(`key_time != 0`), else direct acceptance. -/
def process_held (key2 ticks : Nat) (s3 : KState) : KState × List Nat :=
  if s3.key_time ≠ 0 then
    if s3.key_repeat = 0 ∧ ticks < s3.key_time + KEY_REPEAT_DELAY then
      -- Not repeating yet, and haven't passed the delay period (line 231).
      (s3, [])
    else if key2 &&& KEY_SEL ≠ 0 then
      -- After repeat delay, send only one KEY_MENU press from KEY_SEL
      -- (lines 235-240), then fall through to key_repeat = key (line 247).
      if s3.key_repeat = 0 then
        keypad_accept { s3 with key_repeat := KEY_MENU } ticks KEY_MENU
      else
        (s3, [])
    else if key2 &&& TRIM_KEYS = 0 then
      -- For non-trim keys, don't repeat (lines 241-244).
      (s3, [])
    else
      -- For trim keys, repeat at KEY_REPEAT_TIME intervals (line 247).
      keypad_accept { s3 with key_repeat := key2 } ticks key2
  else
    keypad_accept s3 ticks key2

/-- `keypad_process` (keypad.c lines 188-264): one activation of the
debounce/repeat state machine, with auxiliary scheduler data `data` (the
rotary tag), the current `system_ticks`, and the physical matrix `m` read by
the embedded `keypad_scan_keys` call. Returns the new state (including the
scheduler entry) and the list of `gui_input_key` calls made (at most one). -/
def keypad_process (data system_ticks : Nat) (m : KeyMatrix) (s : KState) :
    KState × List Nat :=
  -- Debouncing (lines 192-195).
  if s.key_time ≠ 0 ∧ system_ticks < s.key_time + KEY_HOLDOFF then
    ({ s with sched := some (0, KEY_HOLDOFF) }, [])
  else
    -- Scan the keys, then de-schedule (lines 198-200); cancel the repeat if
    -- no key is seen (lines 203-206).
    let key := keypad_scan_keys m
    let s2 : KState :=
      if key = KEY_NONE then
        { s with key_repeat := 0, key_time := 0, sched := none }
      else
        { s with sched := none }
    let key2 : Nat := rotary_override data key
    if key2 ≠ 0 then
      -- Re-schedule to check the keys again (line 224), then apply the
      -- repeat policy.
      process_held key2 system_ticks { s2 with sched := some (0, KEY_REPEAT_TIME) }
    else
      (s2, [])

/-- The rotary-decoder part of `EXTI15_10_IRQHandler` (keypad.c lines
354-386), modelled as the list of `task_schedule(TASK_PROCESS_KEYPAD, aux,
delay)` calls the handler makes, in order, given the EXTI pending flags and
the GPIOC input read (pin 15 is the edged rotary line A, pin 14 is line B). -/
def EXTI15_10_IRQHandler (flags gpioC : Nat) : List (Nat × Nat) :=
  (if flags &&& KEYPAD_EXTI_LINES ≠ 0 then [(0, 0)] else []) ++
  (if flags &&& ROTARY_EXTI_LINES ≠ 0 then
    if gpioC &&& (1 <<< 15) = 0 then
      -- Falling edge on A.
      if gpioC &&& (1 <<< 14) = 0 then [(1, 0)] else [(2, 0)]
    else
      -- Rising edge on A.
      if gpioC &&& (1 <<< 14) = 0 then [(2, 0)] else [(1, 0)]
  else [])

/-- Spec-side scanner (for the refinement claim about `keypad_scan_keys`): the
first column in scan order 0..3 with any closed contact determines the result;
within that column rows are tried in priority order 0, 1, 2; the fixed table
maps supported intersections and unsupported ones yield `KEY_NONE`; no closed
contact anywhere yields `KEY_NONE`. -/
def keymapSpec (c r : Nat) : Nat :=
  if c = 0 then
    if r = 0 then KEY_CH1_UP else if r = 1 then KEY_CH3_UP else KEY_NONE
  else if c = 1 then
    if r = 0 then KEY_CH1_DN else if r = 1 then KEY_CH3_DN
    else if r = 2 then KEY_SEL else KEY_NONE
  else if c = 2 then
    if r = 0 then KEY_CH2_UP else if r = 1 then KEY_CH4_UP
    else if r = 2 then KEY_OK else KEY_NONE
  else if c = 3 then
    if r = 0 then KEY_CH2_DN else if r = 1 then KEY_CH4_DN
    else if r = 2 then KEY_CANCEL else KEY_NONE
  else KEY_NONE

/-- Spec-side description of one whole scan, built from `keymapSpec`. -/
def scanSpec (m : KeyMatrix) : Nat :=
  match (List.finRange 4).find? (fun c => m c 0 || m c 1 || m c 2) with
  | none => KEY_NONE
  | some c =>
    if m c 0 then keymapSpec c.val 0
    else if m c 1 then keymapSpec c.val 1
    else keymapSpec c.val 2

/-- A key matrix from its twelve contact values, used to decide properties
quantified over all matrices. -/
def mk12 (b00 b01 b02 b10 b11 b12 b20 b21 b22 b30 b31 b32 : Bool) : KeyMatrix :=
  fun c r =>
    if c.val = 0 then (if r.val = 0 then b00 else if r.val = 1 then b01 else b02)
    else if c.val = 1 then (if r.val = 0 then b10 else if r.val = 1 then b11 else b12)
    else if c.val = 2 then (if r.val = 0 then b20 else if r.val = 1 then b21 else b22)
    else (if r.val = 0 then b30 else if r.val = 1 then b31 else b32)

set_option maxHeartbeats 4000000 in
lemma scan_eq_spec_aux : ∀ b00 b01 b02 b10 b11 b12 b20 b21 b22 b30 b31 b32 : Bool,
    keypad_scan_keys (mk12 b00 b01 b02 b10 b11 b12 b20 b21 b22 b30 b31 b32) =
    scanSpec (mk12 b00 b01 b02 b10 b11 b12 b20 b21 b22 b30 b31 b32) := by
  decide

lemma eq_mk12 (m : KeyMatrix) :
    m = mk12 (m 0 0) (m 0 1) (m 0 2) (m 1 0) (m 1 1) (m 1 2)
      (m 2 0) (m 2 1) (m 2 2) (m 3 0) (m 3 1) (m 3 2) := by
  funext c r
  fin_cases c <;> fin_cases r <;> rfl

lemma scan_eq_spec (m : KeyMatrix) : keypad_scan_keys m = scanSpec m := by
  rw [eq_mk12 m]
  exact scan_eq_spec_aux _ _ _ _ _ _ _ _ _ _ _ _

lemma gpioAfter_cols_idle (m : KeyMatrix) (g : Nat) :
    scanGpioAfter m g &&& COL_MASK = 0 := by
  have h : (MASK16 ^^^ COL_MASK) &&& COL_MASK = 0 := by decide
  simp only [scanGpioAfter, gpioReset, Nat.and_assoc, h, Nat.and_zero]

/-- C4: `keypad_scan_keys` agrees with the spec-side scanner on every matrix
state: one closed contact at a supported intersection returns its mapped key,
no contact returns `KEY_NONE`, multiple contacts are resolved by the first
column in scan order 0..3 with row priority 0, 1, 2 within it; and the column
outputs are restored to the idle all-low state afterwards regardless of the
result. -/
theorem scan_keys_spec_C4 :
    (∀ m : KeyMatrix, keypad_scan_keys m = scanSpec m) ∧
    (∀ (m : KeyMatrix) (g : Nat), scanGpioAfter m g &&& COL_MASK = 0) :=
  ⟨scan_eq_spec, gpioAfter_cols_idle⟩

/-- C10: a closed contact at the unmapped intersection (column 0, row 2),
with the two mapped intersections of column 0 open, makes `keypad_scan_keys`
stop at column 0 and return `KEY_NONE`, whatever contacts are closed in the
later columns. -/
theorem scan_unmapped_masks_C10 (m : KeyMatrix)
    (h02 : m 0 2 = true) (h00 : m 0 0 = false) (h01 : m 0 1 = false) :
    keypad_scan_keys m = KEY_NONE := by
  rw [scan_eq_spec]
  have hr : List.finRange 4 = [0, 1, 2, 3] := rfl
  simp [scanSpec, hr, List.find?, h00, h01, h02, keymapSpec]

/-- Witness for C10: contacts closed at (0,2) and at (1,2) - the latter is
the mapped `KEY_SEL` intersection - still yield `KEY_NONE`. -/
theorem scan_unmapped_masks_C10_witness :
    keypad_scan_keys
      (fun c r => (c.val == 0 && r.val == 2) || (c.val == 1 && r.val == 2)) =
      KEY_NONE :=
  scan_unmapped_masks_C10 _ rfl rfl rfl

/-- C8: `keypad_cancel_repeat` clears `key_repeat` and `key_time`, removes the
pending scheduler entry, and is idempotent. -/
theorem cancel_repeat_C8 : ∀ s : KState,
    (keypad_cancel_repeat s).key_repeat = 0 ∧
    (keypad_cancel_repeat s).key_time = 0 ∧
    (keypad_cancel_repeat s).sched = none ∧
    keypad_cancel_repeat (keypad_cancel_repeat s) = keypad_cancel_repeat s :=
  fun _ => ⟨rfl, rfl, rfl, rfl⟩

lemma and_one_shiftLeft_eq_zero_iff (n i : Nat) :
    n &&& (1 <<< i) = 0 ↔ n.testBit i = false := by
  rw [Nat.one_shiftLeft, Nat.and_two_pow]
  cases h : n.testBit i <;> simp [h, Nat.pow_eq_zero]

/-- C5: the rotary edge decoder classifies each edge by the four-case table
over (edge direction of pin A = resulting level of bit 15, level of pin B =
bit 14): A low with B low, or A high with B high, enqueues exactly one "right"
tag (aux data 1); the two complementary combinations enqueue exactly one
"left" tag (aux data 2). -/
theorem rotary_decoder_table_C5 (flags gpio : Nat)
    (hr : flags &&& ROTARY_EXTI_LINES ≠ 0) (hk : flags &&& KEYPAD_EXTI_LINES = 0) :
    (gpio.testBit 15 = false → gpio.testBit 14 = false →
      EXTI15_10_IRQHandler flags gpio = [(1, 0)]) ∧
    (gpio.testBit 15 = true → gpio.testBit 14 = true →
      EXTI15_10_IRQHandler flags gpio = [(1, 0)]) ∧
    (gpio.testBit 15 = false → gpio.testBit 14 = true →
      EXTI15_10_IRQHandler flags gpio = [(2, 0)]) ∧
    (gpio.testBit 15 = true → gpio.testBit 14 = false →
      EXTI15_10_IRQHandler flags gpio = [(2, 0)]) := by
  have t15 : gpio &&& 32768 = 0 ↔ gpio.testBit 15 = false :=
    and_one_shiftLeft_eq_zero_iff gpio 15
  have t14 : gpio &&& 16384 = 0 ↔ gpio.testBit 14 = false :=
    and_one_shiftLeft_eq_zero_iff gpio 14
  refine ⟨?_, ?_, ?_, ?_⟩ <;> intro h15 h14 <;>
    simp [EXTI15_10_IRQHandler, hk, hr, t15, t14, h15, h14]

/-- Witness for C5: a falling edge on pin A with pin B low (both pins read
low) enqueues exactly one "right" tag. -/
theorem rotary_decoder_table_C5_witness :
    EXTI15_10_IRQHandler 0x8000 0 = [(1, 0)] :=
  (rotary_decoder_table_C5 0x8000 0 (by decide) (by decide)).1 rfl rfl

/-- A matrix with only the `KEY_SEL` contact (column 1, row 2) closed. -/
def matrixSelOnly : KeyMatrix := fun c r => c.val == 1 && r.val == 2

/-- A matrix with every contact open. -/
def matrixNone : KeyMatrix := fun _ _ => false

lemma process_holdoff (data ticks : Nat) (m : KeyMatrix) (s : KState)
    (h1 : s.key_time ≠ 0) (h2 : ticks < s.key_time + KEY_HOLDOFF) :
    keypad_process data ticks m s = ({ s with sched := some (0, KEY_HOLDOFF) }, []) := by
  unfold keypad_process
  rw [if_pos ⟨h1, h2⟩]

/-- C2 (amended): in the holdoff branch the state machine re-arms the
scheduler with a fixed delay of `KEY_HOLDOFF` (10) ticks - not the remaining
holdoff - and returns without scanning and without mutating `keys_pressed`,
`key_repeat` or `key_time`. -/
theorem holdoff_rearm_C2 (data ticks : Nat) (m : KeyMatrix) (s : KState)
    (h1 : s.key_time ≠ 0) (h2 : ticks < s.key_time + KEY_HOLDOFF) :
    (keypad_process data ticks m s).2 = [] ∧
    (keypad_process data ticks m s).1.keys_pressed = s.keys_pressed ∧
    (keypad_process data ticks m s).1.key_repeat = s.key_repeat ∧
    (keypad_process data ticks m s).1.key_time = s.key_time ∧
    (keypad_process data ticks m s).1.sched = some (0, KEY_HOLDOFF) := by
  rw [process_holdoff data ticks m s h1 h2]
  exact ⟨rfl, rfl, rfl, rfl, rfl⟩

/-- Counterexample to C2 as stated: at `key_time = 5`, `system_ticks = 9`,
the remaining holdoff is `5 + 10 - 9 = 6` ticks, but the code re-arms with
the fixed delay 10. -/
theorem holdoff_rearm_C2_cex :
    (keypad_process 0 9 matrixNone ⟨0, 0, 5, none⟩).1.sched = some (0, 10) ∧
    (5 + 10 - 9 : Nat) ≠ 10 := by
  decide

/-- Witness for C2: a concrete activation inside the holdoff window. -/
theorem holdoff_rearm_C2_witness :
    (keypad_process 0 12 matrixNone ⟨3, 0, 7, none⟩).2 = [] ∧
    (keypad_process 0 12 matrixNone ⟨3, 0, 7, none⟩).1.keys_pressed = 3 ∧
    (keypad_process 0 12 matrixNone ⟨3, 0, 7, none⟩).1.key_repeat = 0 ∧
    (keypad_process 0 12 matrixNone ⟨3, 0, 7, none⟩).1.key_time = 7 ∧
    (keypad_process 0 12 matrixNone ⟨3, 0, 7, none⟩).1.sched = some (0, KEY_HOLDOFF) :=
  holdoff_rearm_C2 0 12 matrixNone ⟨3, 0, 7, none⟩ (by decide) (by decide)

/-- C9: the holdoff branch re-schedules the task with auxiliary data 0 and
emits nothing, whatever rotary tag `data` the activation carried - the tag is
discarded, so the deferred rotary click can never reach the accumulator or
the UI through the replacement activation's data. -/
theorem holdoff_discards_rotary_C9 (data ticks : Nat) (m : KeyMatrix) (s : KState)
    (h1 : s.key_time ≠ 0) (h2 : ticks < s.key_time + KEY_HOLDOFF) :
    keypad_process data ticks m s = ({ s with sched := some (0, KEY_HOLDOFF) }, []) :=
  process_holdoff data ticks m s h1 h2

/-- Witness for C9: a rotary activation (tag 2) arriving 4 ticks after an
accepted key is replaced by a tagless re-check. -/
theorem holdoff_discards_rotary_C9_witness :
    keypad_process 2 4 matrixSelOnly ⟨0, 0, 1, some (2, 0)⟩ =
      ({ keys_pressed := 0, key_repeat := 0, key_time := 1,
         sched := some (0, KEY_HOLDOFF) }, []) :=
  holdoff_discards_rotary_C9 2 4 matrixSelOnly ⟨0, 0, 1, some (2, 0)⟩ (by decide) (by decide)

/-- Counterexample to C1 as stated: a rotary activation (tag 1, i.e.
`KEY_RIGHT`) arriving while a matrix key is in progress (`key_time = 5`,
within the repeat-delay window at `system_ticks = 20`, `KEY_SEL` still held)
is suppressed: nothing is forwarded to the UI and `accumulated_keys` stays
empty, so the rotary event is not always accepted. -/
theorem rotary_override_C1_cex :
    (keypad_process 1 20 matrixSelOnly ⟨0, 0, 5, none⟩).2 = [] ∧
    (keypad_process 1 20 matrixSelOnly ⟨0, 0, 5, none⟩).1.keys_pressed = 0 := by
  decide

/-- C1 (amended): outside the holdoff branch, a rotary tag of 1 or 2
overrides the scanned key with the synthetic `KEY_RIGHT`/`KEY_LEFT` code
regardless of the matrix scan result, and whenever no matrix key press is in
progress (`key_time` zero, or the scan reads no key) the rotary event is
accepted: ORed into `accumulated_keys` and forwarded to the UI event sink. -/
theorem rotary_override_C1 (data ticks : Nat) (m : KeyMatrix) (s : KState)
    (hd : data = 1 ∨ data = 2)
    (hhold : ¬(s.key_time ≠ 0 ∧ ticks < s.key_time + KEY_HOLDOFF))
    (hidle : s.key_time = 0 ∨ keypad_scan_keys m = KEY_NONE) :
    (keypad_process data ticks m s).2 = [if data = 1 then KEY_RIGHT else KEY_LEFT] ∧
    (keypad_process data ticks m s).1.keys_pressed =
      s.keys_pressed ||| (if data = 1 then KEY_RIGHT else KEY_LEFT) ∧
    (keypad_process data ticks m s).1.key_time = ticks := by
  unfold keypad_process
  rw [if_neg hhold]
  rcases hd with hd | hd <;> subst hd <;>
    rcases hidle with h | h <;>
      rcases Classical.em (keypad_scan_keys m = 0) with hm | hm <;>
        first
          | exact absurd h hm
          | simp [h, hm, process_held, keypad_accept, rotary_override,
              KEY_RIGHT, KEY_LEFT, KEY_NONE]

/-- Witness for C1 (amended): a left rotary tag while the matrix reads
`KEY_SEL` but no press is in progress is accepted as `KEY_LEFT`. -/
theorem rotary_override_C1_witness :
    (keypad_process 2 7 matrixSelOnly ⟨4, 0, 0, none⟩).2 = [KEY_LEFT] ∧
    (keypad_process 2 7 matrixSelOnly ⟨4, 0, 0, none⟩).1.keys_pressed = 4 ||| KEY_LEFT ∧
    (keypad_process 2 7 matrixSelOnly ⟨4, 0, 0, none⟩).1.key_time = 7 :=
  rotary_override_C1 2 7 matrixSelOnly ⟨4, 0, 0, none⟩ (Or.inr rfl) (by decide) (Or.inl rfl)

/-- Run a list of activations (each with its `system_ticks` value and matrix
state, auxiliary data 0) through `keypad_process`, collecting the
`gui_input_key` calls in order. -/
def runTrace (acts : List (Nat × KeyMatrix)) (s : KState) : KState × List Nat :=
  match acts with
  | [] => (s, [])
  | a :: rest =>
    let r := keypad_process 0 a.1 a.2 s
    let r2 := runTrace rest r.1
    (r2.1, r.2 ++ r2.2)

lemma process_sel_repeating (ticks : Nat) (m : KeyMatrix) (s : KState)
    (hscan : keypad_scan_keys m = KEY_SEL)
    (hr : s.key_repeat ≠ 0) (ht : s.key_time ≠ 0) :
    (keypad_process 0 ticks m s).2 = [] ∧
    (keypad_process 0 ticks m s).1.key_repeat = s.key_repeat ∧
    (keypad_process 0 ticks m s).1.key_time = s.key_time ∧
    (keypad_process 0 ticks m s).1.keys_pressed = s.keys_pressed := by
  unfold keypad_process
  rcases Classical.em (s.key_time ≠ 0 ∧ ticks < s.key_time + KEY_HOLDOFF) with hh | hh
  · rw [if_pos hh]
    exact ⟨rfl, rfl, rfl, rfl⟩
  · rw [if_neg hh]
    simp [hscan, hr, ht, process_held, keypad_accept, rotary_override,
      KEY_SEL, KEY_NONE]

lemma runTrace_sel_silent (acts : List (Nat × KeyMatrix)) :
    ∀ s : KState, s.key_repeat ≠ 0 → s.key_time ≠ 0 →
    (∀ a ∈ acts, keypad_scan_keys a.2 = KEY_SEL) →
    (runTrace acts s).2 = [] := by
  induction acts with
  | nil => intro s _ _ _; rfl
  | cons a rest ih =>
    intro s hr ht hacts
    have h1 := process_sel_repeating a.1 a.2 s (hacts a (by simp)) hr ht
    show (keypad_process 0 a.1 a.2 s).2 ++
      (runTrace rest (keypad_process 0 a.1 a.2 s).1).2 = []
    rw [h1.1, List.nil_append]
    exact ih (keypad_process 0 a.1 a.2 s).1 (h1.2.1 ▸ hr) (h1.2.2.1 ▸ ht)
      (fun b hb => hacts b (List.mem_cons_of_mem a hb))

/-- C3: from a state where `KEY_SEL` was accepted (`key_time` set,
`key_repeat` still none), the first activation past the holdoff and repeat
delay with `KEY_SEL` still held emits exactly one `KEY_MENU` event and sets
`key_repeat` to `KEY_MENU`; after that, any sequence of further activations
with `KEY_SEL` held emits no events at all, however long the key stays
held. -/
theorem sel_menu_once_C3 (s : KState) (ticks : Nat) (m : KeyMatrix)
    (hscan : keypad_scan_keys m = KEY_SEL)
    (hrep : s.key_repeat = 0) (ht : s.key_time ≠ 0)
    (hhold : s.key_time + KEY_HOLDOFF ≤ ticks)
    (hdelay : s.key_time + KEY_REPEAT_DELAY ≤ ticks)
    (acts : List (Nat × KeyMatrix))
    (hacts : ∀ a ∈ acts, keypad_scan_keys a.2 = KEY_SEL) :
    (keypad_process 0 ticks m s).2 = [KEY_MENU] ∧
    (keypad_process 0 ticks m s).1.key_repeat = KEY_MENU ∧
    (runTrace acts (keypad_process 0 ticks m s).1).2 = [] := by
  have hstep : (keypad_process 0 ticks m s).2 = [KEY_MENU] ∧
      (keypad_process 0 ticks m s).1.key_repeat = KEY_MENU ∧
      (keypad_process 0 ticks m s).1.key_time = ticks := by
    unfold keypad_process
    rw [if_neg (by omega : ¬(s.key_time ≠ 0 ∧ ticks < s.key_time + KEY_HOLDOFF))]
    have hnd : ¬(ticks < s.key_time + KEY_REPEAT_DELAY) := by omega
    simp [hscan, hrep, ht, hnd, process_held, keypad_accept, rotary_override,
      KEY_SEL, KEY_NONE]
  refine ⟨hstep.1, hstep.2.1, ?_⟩
  exact runTrace_sel_silent acts (keypad_process 0 ticks m s).1
    (by rw [hstep.2.1]; decide)
    (by rw [hstep.2.2]; omega)
    hacts

/-- Witness for C3: `KEY_SEL` accepted at tick 1, re-checked at tick 600
(past the 500-tick delay) emits one `KEY_MENU`; a further activation at tick
700 with the key still held emits nothing. -/
theorem sel_menu_once_C3_witness :
    (keypad_process 0 600 matrixSelOnly ⟨0, 0, 1, none⟩).2 = [KEY_MENU] ∧
    (keypad_process 0 600 matrixSelOnly ⟨0, 0, 1, none⟩).1.key_repeat = KEY_MENU ∧
    (runTrace [(700, matrixSelOnly)]
      (keypad_process 0 600 matrixSelOnly ⟨0, 0, 1, none⟩).1).2 = [] :=
  sel_menu_once_C3 ⟨0, 0, 1, none⟩ 600 matrixSelOnly (by decide) rfl
    (by decide) (by decide) (by decide) [(700, matrixSelOnly)]
    (by
      intro a ha
      rcases List.mem_singleton.mp ha with rfl
      decide)

lemma mask32_eq : MASK32 = 2 ^ 32 - 1 := by decide

/-- C7: polling a single-bit key `2 ^ i`: when that bit is set in
`keys_pressed`, `keypad_get_pressed` returns true and clears exactly bit `i`,
leaving every other bit unchanged; when it is clear, it returns false and
leaves the whole state unchanged. -/
theorem get_pressed_bit_C7 (s : KState) (i : Nat) (hi : i < 32)
    (hkp : s.keys_pressed < 2 ^ 32) :
    (s.keys_pressed.testBit i = true →
      (keypad_get_pressed (2 ^ i) s).1 = true ∧
      ∀ j, (keypad_get_pressed (2 ^ i) s).2.keys_pressed.testBit j =
        if j = i then false else s.keys_pressed.testBit j) ∧
    (s.keys_pressed.testBit i = false →
      (keypad_get_pressed (2 ^ i) s).1 = false ∧
      (keypad_get_pressed (2 ^ i) s).2 = s) := by
  have hcond : (s.keys_pressed &&& 2 ^ i ≠ 0) ↔ s.keys_pressed.testBit i = true := by
    rw [Nat.and_two_pow]
    cases h : s.keys_pressed.testBit i <;> simp [h, Nat.pow_eq_zero]
  constructor
  · intro hbit
    unfold keypad_get_pressed
    rw [if_pos (hcond.mpr hbit)]
    refine ⟨rfl, fun j => ?_⟩
    show (s.keys_pressed &&& (MASK32 ^^^ 2 ^ i)).testBit j = _
    rw [Nat.testBit_and, Nat.testBit_xor, mask32_eq, Nat.testBit_two_pow_sub_one]
    by_cases hj : j = i
    · subst hj
      simp [Nat.testBit_two_pow, hi]
    · by_cases hj32 : j < 32
      · simp [Nat.testBit_two_pow, hj32, hj, Ne.symm hj]
      · have hlow : s.keys_pressed.testBit j = false :=
          Nat.testBit_eq_false_of_lt
            (lt_of_lt_of_le hkp (Nat.pow_le_pow_right (by omega) (by omega)))
        simp [Nat.testBit_two_pow, hj32, hj, Ne.symm hj, hlow]
  · intro hbit
    unfold keypad_get_pressed
    rw [if_neg (fun h => by rw [hcond.mp h] at hbit; exact Bool.noConfusion hbit)]
    exact ⟨rfl, rfl⟩

/-- Witness for C7: with `keys_pressed = 5`, polling bit 0 returns true and
clears only bit 0 (bit 2 stays set); polling bit 1 of the result returns
false. -/
theorem get_pressed_bit_C7_witness :
    (keypad_get_pressed (2 ^ 0) ⟨5, 0, 0, none⟩).1 = true ∧
    (keypad_get_pressed (2 ^ 0) ⟨5, 0, 0, none⟩).2.keys_pressed.testBit 0 = false ∧
    (keypad_get_pressed (2 ^ 0) ⟨5, 0, 0, none⟩).2.keys_pressed.testBit 2 = true :=
  have h := (get_pressed_bit_C7 ⟨5, 0, 0, none⟩ 0 (by decide) (by decide)).1 (by decide)
  ⟨h.1, by rw [h.2 0]; decide, by rw [h.2 2]; decide⟩

/-- The state invariant of the spec's data model: `repeating_key` is non-none
only if `last_event_time` is non-none. -/
def KInv (s : KState) : Prop := s.key_repeat ≠ 0 → s.key_time ≠ 0

lemma and_or_cancel (a b : Nat) : (a &&& b) ||| a = a := by
  apply Nat.eq_of_testBit_eq
  intro j
  rw [Nat.testBit_or, Nat.testBit_and]
  cases a.testBit j <;> simp

lemma process_held_inv (key2 ticks : Nat) (s3 : KState)
    (hinv : s3.key_repeat ≠ 0 → s3.key_time ≠ 0)
    (hk2 : key2 ≠ 0)
    (htk : s3.key_time ≠ 0 → 0 < ticks) :
    ((process_held key2 ticks s3).1.key_repeat ≠ 0 →
      (process_held key2 ticks s3).1.key_time ≠ 0) ∧
    (((process_held key2 ticks s3).1.keys_pressed = s3.keys_pressed ∧
        (process_held key2 ticks s3).2 = []) ∨
      (∃ k, k ≠ 0 ∧ (process_held key2 ticks s3).2 = [k] ∧
        (process_held key2 ticks s3).1.keys_pressed = s3.keys_pressed ||| k)) := by
  unfold process_held keypad_accept
  split_ifs with h1 h2 h3 h4 h5 <;>
    dsimp only <;>
    refine ⟨?_, ?_⟩ <;>
      first
        | exact hinv
        | (intro hkr; have := htk h1; omega)
        | (left; exact ⟨rfl, rfl⟩)
        | (right; exact ⟨_, by first | assumption | decide, rfl, rfl⟩)
        | (intro hkr; exact absurd (hinv hkr) h1)

lemma process_inv (data ticks : Nat) (m : KeyMatrix) (s : KState) (hinv : KInv s) :
    KInv (keypad_process data ticks m s).1 ∧
    (((keypad_process data ticks m s).1.keys_pressed = s.keys_pressed ∧
        (keypad_process data ticks m s).2 = []) ∨
      (∃ k, k ≠ 0 ∧ (keypad_process data ticks m s).2 = [k] ∧
        (keypad_process data ticks m s).1.keys_pressed = s.keys_pressed ||| k)) := by
  unfold KInv at hinv ⊢
  unfold keypad_process
  rcases Classical.em (s.key_time ≠ 0 ∧ ticks < s.key_time + KEY_HOLDOFF) with hh | hh
  · rw [if_pos hh]
    exact ⟨hinv, Or.inl ⟨rfl, rfl⟩⟩
  · rw [if_neg hh]
    rcases Classical.em (keypad_scan_keys m = KEY_NONE) with hm | hm
    · simp only [if_pos hm]
      rcases Classical.em (rotary_override data (keypad_scan_keys m) ≠ 0) with hk2 | hk2
      · rw [if_pos hk2]
        exact process_held_inv _ ticks _ (fun h => absurd rfl h) hk2
          (fun h => absurd rfl h)
      · rw [if_neg hk2]
        exact ⟨fun h => absurd rfl h, Or.inl ⟨rfl, rfl⟩⟩
    · simp only [if_neg hm]
      rcases Classical.em (rotary_override data (keypad_scan_keys m) ≠ 0) with hk2 | hk2
      · rw [if_pos hk2]
        exact process_held_inv _ ticks _ hinv hk2
          (fun h => by dsimp only at h; omega)
      · rw [if_neg hk2]
        exact ⟨hinv, Or.inl ⟨rfl, rfl⟩⟩

/-- C6: every operation preserves the invariants: `key_repeat` non-zero
implies `key_time` non-zero, and `accumulated_keys` bits are only added by
the state machine (always a non-zero key pattern, the one forwarded to the
UI) and only removed by `keypad_get_pressed` (the result is a subset of the
old bits); `keypad_cancel_repeat` touches neither direction. -/
theorem invariants_C6 (s : KState) (data ticks key : Nat) (m : KeyMatrix)
    (hinv : KInv s) :
    (KInv (keypad_process data ticks m s).1 ∧
      (((keypad_process data ticks m s).1.keys_pressed = s.keys_pressed ∧
          (keypad_process data ticks m s).2 = []) ∨
        (∃ k, k ≠ 0 ∧ (keypad_process data ticks m s).2 = [k] ∧
          (keypad_process data ticks m s).1.keys_pressed = s.keys_pressed ||| k))) ∧
    (KInv (keypad_get_pressed key s).2 ∧
      (keypad_get_pressed key s).2.keys_pressed ||| s.keys_pressed = s.keys_pressed) ∧
    (KInv (keypad_cancel_repeat s) ∧
      (keypad_cancel_repeat s).keys_pressed = s.keys_pressed) := by
  refine ⟨process_inv data ticks m s hinv, ⟨?_, ?_⟩, ⟨?_, rfl⟩⟩
  · unfold keypad_get_pressed KInv at *
    split_ifs <;> exact hinv
  · unfold keypad_get_pressed
    split_ifs
    · exact and_or_cancel _ _
    · exact Nat.or_self _
  · intro h
    exact absurd rfl h

/-- Witness for C6: the invariants hold across one concrete activation, one
poll and one cancellation from a concrete invariant-respecting state. -/
theorem invariants_C6_witness :
    (KInv (keypad_process 0 20 matrixNone ⟨1, 2, 3, none⟩).1 ∧
      (((keypad_process 0 20 matrixNone ⟨1, 2, 3, none⟩).1.keys_pressed = 1 ∧
          (keypad_process 0 20 matrixNone ⟨1, 2, 3, none⟩).2 = []) ∨
        (∃ k, k ≠ 0 ∧ (keypad_process 0 20 matrixNone ⟨1, 2, 3, none⟩).2 = [k] ∧
          (keypad_process 0 20 matrixNone ⟨1, 2, 3, none⟩).1.keys_pressed = 1 ||| k))) ∧
    (KInv (keypad_get_pressed 1 ⟨1, 2, 3, none⟩).2 ∧
      (keypad_get_pressed 1 ⟨1, 2, 3, none⟩).2.keys_pressed ||| 1 = 1) ∧
    (KInv (keypad_cancel_repeat ⟨1, 2, 3, none⟩) ∧
      (keypad_cancel_repeat ⟨1, 2, 3, none⟩).keys_pressed = 1) :=
  invariants_C6 ⟨1, 2, 3, none⟩ 0 20 1 matrixNone (fun _ => by decide)

end Keypad
